import Mathlib

/-!
Verification of the Manifest Provenance Observation Engine of the
integrity-shield observer (package `observer`).

Go strings are modelled as `List Char`.  Loosely typed JSON values
(`map[string]interface{}` after `json.Unmarshal`) are modelled by the
inductive `Json`; a response body is modelled by its parse outcome
(`Option Json`, where `none` stands for bytes that fail `json.Unmarshal`
into a map).  A Go panic (failed dynamic type assertion, nil-pointer
dereference) is modelled by the value `none` of a surrounding `Option`.
-/

namespace IntegrityShield

/-- JSON values, as produced by `json.Unmarshal` into `interface\x7b\x7d`. -/
inductive Json where
  | null : Json
  | jbool (b : Bool) : Json
  | num (n : Int) : Json
  | str (v : List Char) : Json
  | arr (elems : List Json) : Json
  | obj (fields : List ((List Char) × Json)) : Json

/-- Lookup of a key in a JSON object's field list (Go map indexing:
an absent key yields the nil interface, modelled `none`). -/
def jlookup (fields : List ((List Char) × Json)) (k : List Char) : Option Json :=
  match fields.find? (fun p => p.1 == k) with
  | some p => some p.2
  | none => none

/-- Go type assertion `v.(map[string]interface\x7b\x7d)`: panics (modelled
`none`) when the value is nil or not an object. -/
def asObj : Option Json → Option (List ((List Char) × Json))
  | some (Json.obj fs) => some fs
  | _ => none

/-- Go type assertion `v.([]interface\x7b\x7d)`: panics (modelled `none`)
when the value is nil or not an array. -/
def asArr : Option Json → Option (List Json)
  | some (Json.arr xs) => some xs
  | _ => none

/-- Prefix test on character lists, the matching step of Go
`strings.Index` / `strings.Replace`. -/
def isPref : List Char → List Char → Bool
  | [], _ => true
  | _ :: _, [] => false
  | a :: as, b :: bs => a == b && isPref as bs

/-- Go `strings.Replace(s, old, new, 1)`: replace the leftmost
occurrence of `old` in `s` by `new` (insert `new` at the front when
`old` is empty, leave `s` unchanged when `old` does not occur). -/
def replaceFirst (old new : List Char) : List Char → List Char
  | [] => if isPref old [] then new else []
  | c :: rest =>
    if isPref old (c :: rest) then new ++ (c :: rest).drop old.length
    else c :: replaceFirst old new rest

/-- `convertToCommitDetailURL` from the source: two first-occurrence
substring replacements followed by appending `/` and the commit id. -/
def convertToCommitDetailURL (uri commit : List Char) : List Char :=
  let replaced := replaceFirst ((".git").data) (("/commits").data) uri
  let replaced1 := replaceFirst (("github.com").data) (("api.github.com/repos").data) replaced
  replaced1 ++ ("/").data ++ commit

/-- `convertToCommitHistoryURL` from the source: the same two
replacements, without appending the commit id. -/
def convertToCommitHistoryURL (uri commit : List Char) : List Char :=
  let replaced := replaceFirst ((".git").data) (("/commits").data) uri
  replaceFirst (("github.com").data) (("api.github.com/repos").data) replaced

/-- The spec's description of the commit-detail URL derivation: replace a
trailing `.git` by `/commits`, replace the `github.com` host segment by
`api.github.com/repos`, then append `/` and the commit id. -/
def specCommitDetailURL (uri commit : List Char) : List Char :=
  let step1 :=
    if (".git").data <:+ uri then uri.take (uri.length - 4) ++ ("/commits").data
    else uri
  let step2 :=
    if ("https://github.com").data <+: step1 then
      ("https://api.github.com/repos").data ++ step1.drop 18
    else step1
  step2 ++ ("/").data ++ commit

/-- `CommitData` from the source (commit id, date, author email, changed
file names). -/
structure CommitData where
  Commit : List Char
  Date : List Char
  Author : List Char
  Files : List (List Char)
deriving DecidableEq

/-- `Parent` from the source. -/
structure Parent where
  Commit : List Char
  URL : List Char
deriving DecidableEq

/-- Minimal model of `unstructured.Unstructured`: the identity accessors
used by the observer (`GetAPIVersion`, `GetKind`, `GetName`,
`GetNamespace`). -/
structure Unstructured where
  apiVersion : List Char
  kind : List Char
  name : List Char
  nspace : List Char
deriving DecidableEq

/-- An attestation material: source URI plus a digest set
(`map[string]string`, modelled as an association list). -/
structure AttestationMaterial where
  URI : List Char
  Digest : List ((List Char) × (List Char))
deriving DecidableEq

/-- One provenance statement of a verification result: artifact name,
artifact type, content hash and its attestation materials. -/
structure Provenance where
  Artifact : List Char
  ArtifactType : List Char
  Hash : List Char
  AttestationMaterials : List AttestationMaterial
deriving DecidableEq

/-- A verification result: the live resource plus its provenance
statements. -/
structure VerifyResult where
  Resource : Unstructured
  Provenances : List Provenance
deriving DecidableEq

/-- `ManifestProvenanceInfo` from the source. -/
structure ManifestProvenanceInfo where
  Artifact : List Char
  CommitID : List Char
  GitApiURL : List Char
  Hash : List Char
  GitRepo : List Char
deriving DecidableEq

/-- `ManifestProvenanceResult` from the source. -/
structure ManifestProvenanceResult where
  GitRepo : List Char
  GitApiURL : List Char
  CommitID : List Char
  CommitDate : List Char
  Author : List Char
  Files : List (List Char)
  Hash : List Char
  Artifact : List Char
deriving DecidableEq

/-- `ObservationResourceResult`: per-resource observation record of the
current cycle (identity fields, the resource, and the extracted
provenance infos). -/
structure ObservationResourceResult where
  Kind : List Char
  Namespace : List Char
  Name : List Char
  Resource : Unstructured
  ManifestProvenanceInfo : List ManifestProvenanceInfo
deriving DecidableEq

/-- `FinalObservationResourceResult`: a previous cycle's stored entry;
the source consults its identity fields (`Kind`, `Namespace`, `Name`)
and carries resolved provenance results. -/
structure FinalObservationResourceResult where
  Kind : List Char
  Namespace : List Char
  Name : List Char
  ManifestProvenanceResults : List ManifestProvenanceResult
deriving DecidableEq

/-- The Go zero value `FinalObservationResourceResult\x7b\x7d`. -/
def FinalObservationResourceResult.zero : FinalObservationResourceResult :=
  { Kind := [], Namespace := [], Name := [], ManifestProvenanceResults := [] }

/-- The external constant `k8smnfutil.ArtifactManifestImage` (an opaque
string tag; only its identity matters here). -/
def ArtifactManifestImage : List Char := ("manifestImage").data

/-- `getCommitID` from the source: the `commit` key of the digest set,
or the empty string when absent. -/
def getCommitID (digest : List ((List Char) × (List Char))) : List Char :=
  match List.lookup (("commit").data) digest with
  | some val => val
  | none => []

/-- The `ManifestProvenanceInfo` built for one (statement, material)
pair in `GetProvenanceFromVerifyResourceResult`. -/
def mkManifestProvenanceInfo (pr : Provenance) (am : AttestationMaterial) :
    ManifestProvenanceInfo :=
  let commitID := getCommitID am.Digest
  { Artifact := pr.Artifact
    CommitID := commitID
    GitApiURL := convertToCommitDetailURL am.URI commitID
    Hash := pr.Hash
    GitRepo := am.URI }

/-- `GetProvenanceFromVerifyResourceResult` from the source: set the
identity fields, return early on an empty provenance list, else skip
non-manifest-image statements and append one info per attestation
material. -/
def GetProvenanceFromVerifyResourceResult (res : VerifyResult) :
    ObservationResourceResult :=
  let base : ObservationResourceResult :=
    { Kind := res.Resource.kind
      Namespace := res.Resource.nspace
      Name := res.Resource.name
      Resource := res.Resource
      ManifestProvenanceInfo := [] }
  if res.Provenances.length == 0 then base
  else
    { base with ManifestProvenanceInfo :=
        (res.Provenances.foldl
          (fun acc pr =>
            if pr.ArtifactType == ArtifactManifestImage then
              if pr.AttestationMaterials.length == 0 then acc
              else pr.AttestationMaterials.foldl
                (fun acc2 am => acc2 ++ [mkManifestProvenanceInfo pr am]) acc
            else acc)
          []) }

/-- The author-email step of `getCommitInfoFromDetail`: the Go code
checks `author != nil` before asserting `author.(string)`, so a missing
or null email yields the empty string, while a non-string email panics
(modelled `none`). -/
def extractAuthor (authorObj : List ((List Char) × Json)) : Option (List Char) :=
  match jlookup authorObj (("email").data) with
  | some (Json.str e) => some e
  | some Json.null => some []
  | none => some []
  | some _ => none

/-- The commit-date step of `getCommitInfoFromDetail`: `date.(string)`
panics (modelled `none`) on a missing, null or non-string date. -/
def extractDate (authorObj : List ((List Char) × Json)) : Option (List Char) :=
  match jlookup authorObj (("date").data) with
  | some (Json.str d) => some d
  | _ => none

/-- One iteration of the files loop of `getCommitInfoFromDetail`:
`file.(map[...])["filename"].(string)` panics (modelled `none`) on a
non-object entry or a missing/non-string `filename`. -/
def extractFileName (file : Json) : Option (List Char) :=
  match file with
  | Json.obj fs =>
    (match jlookup fs (("filename").data) with
     | some (Json.str n) => some n
     | _ => none)
  | _ => none

/-- `getCommitInfoFromDetail` from the source.  The body is given by its
parse outcome (`none` = `json.Unmarshal` into a map fails — also when
the body is valid JSON but not an object — after which the Go code runs
dynamic type assertions on a nil map and panics).  Every failed dynamic
type assertion is modelled by `none`: `data["commit"].(map[...])`,
`...["author"].(map[...])`, the author email and date steps, and
`data["files"].([]interface\x7b\x7d)` with the per-file
`filename` assertions. -/
def getCommitInfoFromDetail (body : Option Json) (cmtid : List Char) :
    Option CommitData :=
  match body with
  | some (Json.obj data) =>
    (match asObj (jlookup data (("commit").data)) with
     | some commitObj =>
       (match asObj (jlookup commitObj (("author").data)) with
        | some authorObj =>
          (match extractAuthor authorObj with
           | some authorEmail =>
             (match extractDate authorObj with
              | some date =>
                (match asArr (jlookup data (("files").data)) with
                 | some files =>
                   (match files.mapM extractFileName with
                    | some names => some
                      { Commit := cmtid, Date := date
                        Author := authorEmail, Files := names }
                    | none => none)
                 | none => none)
              | none => none)
           | none => none)
        | none => none)
     | none => none)
  | _ => none

/-- An HTTP request: URL plus explicitly added headers. -/
structure HttpRequest where
  url : List Char
  headers : List ((List Char) × (List Char))
deriving DecidableEq

/-- The two requests of `accessGitRepo`: the request built by
`http.NewRequest` (to which the `Authorization: Bearer <token>` header
is added) and the request actually issued, which is `client.Get(url)` —
a fresh GET carrying no added header; the built request is never sent.
Returns (built, sent). -/
def accessGitRepoRequests (url token : List Char) : HttpRequest × HttpRequest :=
  let bearer := ("Bearer ").data ++ token
  let req : HttpRequest := { url := url, headers := [((("Authorization").data), bearer)] }
  let sentByGet : HttpRequest := { url := url, headers := [] }
  (req, sentByGet)

/-- `accessGitRepo` over a network oracle `net` (url → token → response).
`net` returns `none` on a transport failure; the Go code then logs the
error and dereferences the nil response (`res.Body`) — a panic, modelled
`none`.  On success the body is returned (as its parse outcome).  The
second component is the trace of URLs actually fetched. -/
def accessGitRepoT (net : List Char → List Char → Option (Option Json))
    (url token : List Char) : Option (Option Json) × List (List Char) :=
  (match net url token with
   | none => none
   | some body => some body,
   [url])

/-- `setNewManifestProvenanceResult` from the source: read the token
from process-wide configuration (`GIT_TOKEN`, the `gitToken` argument;
Go's `os.Getenv` yields the empty string when unset), fetch the commit
detail URL unconditionally, parse it, and merge the result with the
given info.  `none` models a panic of the fetch or the parse.  The
second component is the trace of URLs fetched. -/
def setNewManifestProvenanceResult
    (net : List Char → List Char → Option (Option Json))
    (gitToken : List Char) (prov : ManifestProvenanceInfo) :
    Option ManifestProvenanceResult × List (List Char) :=
  let fetched := accessGitRepoT net prov.GitApiURL gitToken
  (match fetched.1 with
   | none => none
   | some body =>
     match getCommitInfoFromDetail body prov.CommitID with
     | none => none
     | some cmtd => some
       { GitRepo := prov.GitRepo
         GitApiURL := prov.GitApiURL
         CommitID := prov.CommitID
         CommitDate := cmtd.Date
         Author := cmtd.Author
         Files := cmtd.Files
         Hash := prov.Hash
         Artifact := prov.Artifact },
   fetched.2)

/-- Resolving the same provenance info twice in sequence within one
cycle: the pair of results and the concatenated fetch trace. -/
def resolveTwice (net : List Char → List Char → Option (Option Json))
    (gitToken : List Char) (prov : ManifestProvenanceInfo) :
    (Option ManifestProvenanceResult × Option ManifestProvenanceResult) ×
      List (List Char) :=
  let r1 := setNewManifestProvenanceResult net gitToken prov
  let r2 := setNewManifestProvenanceResult net gitToken prov
  ((r1.1, r2.1), r1.2 ++ r2.2)

/-- `getTargetResourceLog` from the source: first previous-cycle entry
agreeing on kind, namespace and name; `(false, zero value)` when none
does. -/
def getTargetResourceLog (res : ObservationResourceResult)
    (lastResults : List FinalObservationResourceResult) :
    Bool × FinalObservationResourceResult :=
  match lastResults with
  | [] => (false, FinalObservationResourceResult.zero)
  | lres :: rest =>
    if lres.Kind == res.Kind && lres.Namespace == res.Namespace
        && lres.Name == res.Name then
      (true, lres)
    else getTargetResourceLog res rest

/-- `getTargetProvenanceLog` from the source: first previous-cycle
provenance result agreeing on the repository URL alone. -/
def getTargetProvenanceLog (new : ManifestProvenanceInfo)
    (lastProvs : List ManifestProvenanceResult) :
    Bool × ManifestProvenanceResult :=
  match lastProvs with
  | [] => (false,
    { GitRepo := [], GitApiURL := [], CommitID := [], CommitDate := []
      Author := [], Files := [], Hash := [], Artifact := [] })
  | prov :: rest =>
    if prov.GitRepo == new.GitRepo then (true, prov)
    else getTargetProvenanceLog new rest

/-- One document of an unpacked artifact bundle: its raw bytes together
with its `yaml.Unmarshal` outcome (`none` = parse error, skipped by the
kind filter in the source). -/
structure YamlDoc where
  raw : List Char
  parsed : Option Unstructured

/-- Modelled from the spec: `k8smnfutil.ManifestSearchByGVKNameNamespace`
is an external library call; per the spec it searches the kind-filtered
candidates for one whose (apiVersion, kind, name, namespace) exactly
equals the resource's, returning the first such manifest. -/
def ManifestSearchByGVKNameNamespace (docs : List YamlDoc)
    (apiVersion kind name nspace : List Char) : Bool × Option (List Char) :=
  match docs.find? (fun d => match d.parsed with
    | some m => m.apiVersion == apiVersion && m.kind == kind
        && m.name == name && m.nspace == nspace
    | none => false) with
  | some d => (true, some d.raw)
  | none => (false, none)

/-- `getManifestYaml` from the source, after the external image pull and
YAML split (their failure paths return `(false, nil)` before this
logic): filter the bundle documents to those whose kind equals the
resource's (documents that fail to unmarshal are skipped), fail with
NotFound when none match, otherwise try the identity search first and
fall back to the external content search
(`k8smnfutil.ManifestSearchByContent`, kept abstract as the
`contentSearch` argument) only when the identity search finds nothing. -/
def getManifestYaml
    (contentSearch : List YamlDoc → Unstructured → Bool × Option (List Char))
    (bundle : List YamlDoc) (obj : Unstructured) : Bool × Option (List Char) :=
  let kindMatched := bundle.filter (fun d => match d.parsed with
    | some m => m.kind == obj.kind
    | none => false)
  if kindMatched.isEmpty then (false, none)
  else
    match ManifestSearchByGVKNameNamespace kindMatched
        obj.apiVersion obj.kind obj.name obj.nspace with
    | (true, foundBytes) => (true, foundBytes)
    | (false, _) =>
      match contentSearch kindMatched obj with
      | (true, foundBytes) => (true, foundBytes)
      | (false, _) => (false, none)

/-! Concrete sample data used by witnesses and counterexamples. -/

/-- A commit-detail response body with `commit.author.email`,
`commit.author.date` but no `files` key. -/
def noFilesFields : List ((List Char) × Json) :=
  [((("commit").data), Json.obj [((("author").data), Json.obj
      [((("email").data), Json.str (("dev@example.com").data)),
       ((("date").data), Json.str (("2021-01-01T00:00:00Z").data))])])]

/-- A complete commit-detail response body (one changed file). -/
def goodCommitJson : Json :=
  Json.obj (noFilesFields ++ [((("files").data),
    Json.arr [Json.obj [((("filename").data), Json.str (("app.yaml").data))]])])

/-- A sample provenance info for the spec's round-trip repository. -/
def sampleProv : ManifestProvenanceInfo :=
  { Artifact := ("registry.example/app-manifest").data
    CommitID := ("abc123").data
    GitApiURL := convertToCommitDetailURL
      (("https://github.com/acme/app.git").data) (("abc123").data)
    Hash := ("sha256:aaaa").data
    GitRepo := ("https://github.com/acme/app.git").data }

/-- A network oracle that always answers with `goodCommitJson`. -/
def goodNet : List Char → List Char → Option (Option Json) :=
  fun _ _ => some (some goodCommitJson)

/-- A network oracle whose every request is a transport failure. -/
def failNet : List Char → List Char → Option (Option Json) :=
  fun _ _ => none


/-- A sample incoming observation result (Deployment default/web). -/
def sampleRes : ObservationResourceResult :=
  { Kind := ("Deployment").data
    Namespace := ("default").data
    Name := ("web").data
    Resource := { apiVersion := ("apps/v1").data, kind := ("Deployment").data,
                  name := ("web").data, nspace := ("default").data }
    ManifestProvenanceInfo := [] }

/-- A sample previous-cycle entry with the identity of `sampleRes`. -/
def sampleFinal : FinalObservationResourceResult :=
  { Kind := ("Deployment").data
    Namespace := ("default").data
    Name := ("web").data
    ManifestProvenanceResults := [] }


/-- The resource used by the locate witnesses. -/
def objWeb : Unstructured :=
  { apiVersion := ("apps/v1").data, kind := ("Deployment").data,
    name := ("web").data, nspace := ("default").data }

/-- A bundle document whose identity equals `objWeb`. -/
def docWeb : YamlDoc :=
  { raw := ("web-manifest").data, parsed := some objWeb }

/-- A bundle document of the same kind with a different name. -/
def docApi : YamlDoc :=
  { raw := ("api-manifest").data
    parsed := some { apiVersion := ("apps/v1").data, kind := ("Deployment").data,
                     name := ("api").data, nspace := ("default").data } }

/-- A content search that would pick the `api` manifest. -/
def csPickApi : List YamlDoc → Unstructured → Bool × Option (List Char) :=
  fun _ _ => (true, some (("api-manifest").data))

/-- A content search that finds nothing. -/
def csNone : List YamlDoc → Unstructured → Bool × Option (List Char) :=
  fun _ _ => (false, none)


/-! Helper lemmas about `isPref` and `replaceFirst`. -/

theorem isPref_cons_of_ne {a c : Char} (old s : List Char) (h : a ≠ c) :
    isPref (a :: old) (c :: s) = false := by
  simp [isPref, h]

theorem isPref_append_self : ∀ (l t : List Char), isPref l (l ++ t) = true
  | [], _ => rfl
  | c :: l, t => by simp [isPref, isPref_append_self l t]

theorem replaceFirst_cons_of_neg {old : List Char} (new : List Char) {c : Char}
    {s : List Char} (h : isPref old (c :: s) = false) :
    replaceFirst old new (c :: s) = c :: replaceFirst old new s := by
  simp [replaceFirst, h]

theorem replaceFirst_of_pos {old : List Char} (new : List Char) {s : List Char}
    (h : isPref old s = true) :
    replaceFirst old new s = new ++ s.drop old.length := by
  cases s with
  | nil => simp [replaceFirst, h]
  | cons c rest => simp [replaceFirst, h]

theorem replaceFirst_append_of_head_notMem {ch : Char} (old new : List Char) :
    ∀ {a : List Char} (b : List Char), ch ∉ a →
      replaceFirst (ch :: old) new (a ++ b) = a ++ replaceFirst (ch :: old) new b
  | [], _, _ => rfl
  | c :: a, b, h => by
    have hne : ch ≠ c := fun hc => h (hc ▸ List.mem_cons_self c a)
    have hna : ch ∉ a := fun hc => h (List.mem_cons_of_mem c hc)
    rw [List.cons_append, replaceFirst_cons_of_neg new (isPref_cons_of_ne old _ hne),
      replaceFirst_append_of_head_notMem old new b hna, List.cons_append]

/-- C10: the commit-detail URL is the commit-history URL for the same URI
with `/` and the commit id appended. -/
theorem detailURL_eq_historyURL_append (uri commit : List Char) :
    convertToCommitDetailURL uri commit
      = convertToCommitHistoryURL uri commit ++ ("/").data ++ commit := rfl

/-- C5 (amended): on a GitHub URI `https://github.com/<owner>/<repo>.git`
whose owner and repo segments contain no `.` character — so that the
first occurrence of `.git` is the trailing one and the first occurrence
of `github.com` is the host — the derived commit-detail URL is
`https://api.github.com/repos/<owner>/<repo>/commits/<commitID>`. -/
theorem convertToCommitDetailURL_github (o r commit : List Char)
    (ho : ('.' : Char) ∉ o) (hr : ('.' : Char) ∉ r) :
    convertToCommitDetailURL
        ((("https://github.com/").data) ++ o ++ (("/").data) ++ r ++ ((".git").data))
        commit
      = (("https://api.github.com/repos/").data) ++ o ++ (("/").data) ++ r
          ++ (("/commits/").data) ++ commit := by
  have hnodot : ('.' : Char) ∉ ("com/").data ++ (o ++ (("/").data ++ r)) := by
    simp only [List.mem_append]
    push_neg
    exact ⟨by decide, ho, by decide, hr⟩
  have step1 : replaceFirst ((".git").data) (("/commits").data)
      ((("https://github.com/").data) ++ o ++ (("/").data) ++ r ++ ((".git").data))
      = (("https://github.com/").data) ++ o ++ (("/").data) ++ r
          ++ (("/commits").data) := by
    have e1 : (("https://github.com/").data) ++ o ++ (("/").data) ++ r ++ ((".git").data)
        = ("https://github").data
            ++ ('.' :: ((("com/").data ++ (o ++ (("/").data ++ r)))
              ++ ('.' :: ("git").data))) := by
      simp [List.append_assoc]
    rw [show ((".git").data) = '.' :: ("git").data from rfl, e1,
      replaceFirst_append_of_head_notMem _ _ _ (by decide),
      replaceFirst_cons_of_neg _ (by rfl),
      replaceFirst_append_of_head_notMem _ _ _ hnodot,
      replaceFirst_of_pos _ (by rfl)]
    simp [List.append_assoc]
  have step2 : replaceFirst (("github.com").data) (("api.github.com/repos").data)
      ((("https://github.com/").data) ++ o ++ (("/").data) ++ r
        ++ (("/commits").data))
      = (("https://api.github.com/repos/").data) ++ o ++ (("/").data) ++ r
          ++ (("/commits").data) := by
    have e2 : (("https://github.com/").data) ++ o ++ (("/").data) ++ r
          ++ (("/commits").data)
        = ("https://").data ++ (("github.com").data
            ++ ('/' :: (o ++ (("/").data ++ (r ++ ("/commits").data))))) := by
      simp [List.append_assoc]
    rw [e2, show (("github.com").data) = 'g' :: ("ithub.com").data from rfl,
      replaceFirst_append_of_head_notMem _ _ _ (by decide),
      replaceFirst_of_pos _ (isPref_append_self _ _), List.drop_left]
    simp [List.append_assoc]
  rw [convertToCommitDetailURL, step1, step2]
  simp [List.append_assoc]

/-- C5 witness: the spec's round-trip example, via the amended theorem. -/
theorem convertToCommitDetailURL_github_witness :
    convertToCommitDetailURL (("https://github.com/acme/app.git").data)
        (("abc123").data)
      = ("https://api.github.com/repos/acme/app/commits/abc123").data :=
  convertToCommitDetailURL_github (("acme").data) (("app").data)
    (("abc123").data) (by decide) (by decide)

/-- C5 counterexample: on a URI in which `.git` occurs before the
trailing position (`app.github.io.git`), the code's first-occurrence
replacement disagrees with the spec's trailing-`.git` transform. -/
theorem convertToCommitDetailURL_not_trailing_cex :
    convertToCommitDetailURL
        (("https://github.com/acme/app.github.io.git").data) (("abc123").data)
      ≠ specCommitDetailURL
        (("https://github.com/acme/app.github.io.git").data) (("abc123").data) := by
  decide

/-- C2 (amended): a commit-detail response that is a valid JSON object
with no `files` key makes `getCommitInfoFromDetail` panic on the
`data["files"].([]interface\x7b\x7d)` assertion (modelled `none`) —
it never yields a `CommitData`; the empty changed-file list arises only
from a present-but-empty `files` array. -/
theorem getCommitInfoFromDetail_files_behavior :
    (∀ (fs : List ((List Char) × Json)) (cmtid : List Char),
        jlookup fs (("files").data) = none →
        getCommitInfoFromDetail (some (Json.obj fs)) cmtid = none)
  ∧ (∀ (email date cmtid : List Char),
        getCommitInfoFromDetail (some (Json.obj
          [((("commit").data), Json.obj [((("author").data), Json.obj
              [((("email").data), Json.str email),
               ((("date").data), Json.str date)])]),
           ((("files").data), Json.arr [])])) cmtid
          = some { Commit := cmtid, Date := date, Author := email, Files := [] }) := by
  constructor
  · intro fs cmtid hf
    have hfa : asArr (jlookup fs (("files").data)) = none := by rw [hf]; rfl
    simp only [getCommitInfoFromDetail, hfa]
    repeat' split
    all_goals rfl
  · intro email date cmtid
    rfl

/-- C2 counterexample: a valid JSON object body with author email and
date but no `files` array does not yield a `CommitData` with an empty
changed-file list — the parse panics (modelled `none`). -/
theorem getCommitInfoFromDetail_missing_files_cex :
    getCommitInfoFromDetail (some (Json.obj noFilesFields))
      (("abc123").data) = none := rfl

/-- C2 witness: the amended theorem applied to the concrete no-`files`
body and to the same body with an empty `files` array added. -/
theorem getCommitInfoFromDetail_files_witness :
    getCommitInfoFromDetail (some (Json.obj noFilesFields)) (("xyz").data) = none
  ∧ getCommitInfoFromDetail (some (Json.obj
        (noFilesFields ++ [((("files").data), Json.arr [])]))) (("xyz").data)
      = some { Commit := ("xyz").data, Date := ("2021-01-01T00:00:00Z").data,
               Author := ("dev@example.com").data, Files := [] } := by
  constructor
  · exact getCommitInfoFromDetail_files_behavior.1 noFilesFields
      (("xyz").data) (by rfl)
  · exact getCommitInfoFromDetail_files_behavior.2 (("dev@example.com").data)
      (("2021-01-01T00:00:00Z").data) (("xyz").data)

/-- C1 (amended): the resolver consults no cycle-local cache — every
call of `setNewManifestProvenanceResult` issues exactly one remote fetch
of its commit-detail URL, so resolving the same (repoURL, commitID)
twice within one cycle issues two identical remote fetches; with the
network unchanged between the two calls the second resolution yields a
result byte-identical to the first. -/
theorem setNewManifestProvenanceResult_always_fetches
    (net : List Char → List Char → Option (Option Json))
    (gitToken : List Char) (prov : ManifestProvenanceInfo) :
    (setNewManifestProvenanceResult net gitToken prov).2 = [prov.GitApiURL]
  ∧ (resolveTwice net gitToken prov).2 = [prov.GitApiURL, prov.GitApiURL]
  ∧ (resolveTwice net gitToken prov).1.1 = (resolveTwice net gitToken prov).1.2 :=
  ⟨rfl, rfl, rfl⟩

/-- C1 counterexample: resolving the same (repoURL, commitID) twice
within one cycle against a fixed network issues two remote fetches, not
one — there is no cycle-local cache serving the second resolution. -/
theorem resolveTwice_two_fetches_cex :
    (resolveTwice goodNet [] sampleProv).2
        = [sampleProv.GitApiURL, sampleProv.GitApiURL]
  ∧ ((resolveTwice goodNet [] sampleProv).2).length ≠ 1
  ∧ (resolveTwice goodNet [] sampleProv).1.1
      = (resolveTwice goodNet [] sampleProv).1.2 :=
  ⟨rfl, by decide, rfl⟩

/-- C3: at the failing inputs the resolver panics (modelled `none`)
instead of recording a per-entry resolution failure: a transport failure
makes `accessGitRepo` dereference the nil response, and a body that is
not a JSON object makes `getCommitInfoFromDetail` run type assertions on
a nil map; a process panic aborts every sibling resolution of the
cycle. -/
theorem resolver_panics_on_failures :
    (setNewManifestProvenanceResult failNet [] sampleProv).1 = none
  ∧ getCommitInfoFromDetail none (("abc123").data) = none
  ∧ getCommitInfoFromDetail (some (Json.arr [])) (("abc123").data) = none :=
  ⟨rfl, rfl, rfl⟩

/-- C4: the GET actually issued by `accessGitRepo` is `client.Get(url)`,
which carries no `Authorization` header for any token value; the bearer
header is added only to the separately built request, which is never
sent. -/
theorem accessGitRepo_drops_auth_header (url token : List Char) :
    (accessGitRepoRequests url token).2.headers = []
  ∧ (accessGitRepoRequests url token).1.headers
      = [((("Authorization").data), ("Bearer ").data ++ token)]
  ∧ (accessGitRepoRequests url token).2.url = url :=
  ⟨rfl, rfl, rfl⟩

/-! Fold lemmas for the Provenance Extractor. -/

theorem foldl_append_singleton {α β : Type} (g : α → β) :
    ∀ (l : List α) (acc : List β),
      l.foldl (fun a x => a ++ [g x]) acc = acc ++ l.map g
  | [], acc => by simp
  | x :: l, acc => by
    simp only [List.foldl_cons, List.map_cons, foldl_append_singleton g l]
    simp [List.append_assoc]

theorem prov_foldl (ps : List Provenance) :
    ∀ (acc : List ManifestProvenanceInfo),
      ps.foldl (fun acc pr =>
          if pr.ArtifactType == ArtifactManifestImage then
            if pr.AttestationMaterials.length == 0 then acc
            else pr.AttestationMaterials.foldl
              (fun acc2 am => acc2 ++ [mkManifestProvenanceInfo pr am]) acc
          else acc) acc
      = acc ++ ((ps.filter (fun pr => pr.ArtifactType == ArtifactManifestImage)).map
          (fun pr => pr.AttestationMaterials.map (mkManifestProvenanceInfo pr))).flatten := by
  induction ps with
  | nil => intro acc; simp
  | cons pr ps ih =>
    intro acc
    simp only [List.foldl_cons]
    by_cases hA : (pr.ArtifactType == ArtifactManifestImage) = true
    · have hfc : (pr :: ps).filter (fun x => x.ArtifactType == ArtifactManifestImage)
          = pr :: ps.filter (fun x => x.ArtifactType == ArtifactManifestImage) :=
        List.filter_cons_of_pos hA
      rw [if_pos hA, hfc, List.map_cons, List.flatten_cons]
      by_cases hL : (pr.AttestationMaterials.length == 0) = true
      · have hnil : pr.AttestationMaterials = [] :=
          List.length_eq_zero.mp (by simpa using hL)
        rw [if_pos hL, ih acc, hnil, List.map_nil, List.nil_append]
      · rw [if_neg hL,
          foldl_append_singleton (mkManifestProvenanceInfo pr)
            pr.AttestationMaterials acc,
          ih (acc ++ pr.AttestationMaterials.map (mkManifestProvenanceInfo pr)),
          List.append_assoc]
    · have hfc : (pr :: ps).filter (fun x => x.ArtifactType == ArtifactManifestImage)
          = ps.filter (fun x => x.ArtifactType == ArtifactManifestImage) :=
        List.filter_cons_of_neg (by simpa using hA)
      rw [if_neg hA, ih acc, hfc]

/-- C8: the extractor outputs exactly one `ManifestProvenanceInfo` per
(statement, attestation material) pair of the manifest-image statements,
in input order and without de-duplication; statements of any other
artifact type contribute nothing. -/
theorem GetProvenance_one_info_per_pair (res : VerifyResult) :
    (GetProvenanceFromVerifyResourceResult res).ManifestProvenanceInfo
      = ((res.Provenances.filter
            (fun pr => pr.ArtifactType == ArtifactManifestImage)).map
          (fun pr => pr.AttestationMaterials.map (mkManifestProvenanceInfo pr))).flatten := by
  unfold GetProvenanceFromVerifyResourceResult
  by_cases hz : (res.Provenances.length == 0) = true
  · have hnil : res.Provenances = [] := List.length_eq_zero.mp (by simpa using hz)
    simp [hz, hnil]
  · rw [if_neg hz]
    exact (prov_foldl res.Provenances []).trans (List.nil_append _)

/-- C9: `getTargetResourceLog` (findByIdentity) returns `(true, prior
entry)` exactly when some previous-cycle entry agrees with the incoming
result on kind, namespace and name — the returned entry is such an
agreeing member — and `(false, zero value)` otherwise. -/
theorem getTargetResourceLog_spec (res : ObservationResourceResult)
    (lastResults : List FinalObservationResourceResult) :
    (((getTargetResourceLog res lastResults).1 = true) ↔
      ∃ l ∈ lastResults, l.Kind = res.Kind ∧ l.Namespace = res.Namespace
        ∧ l.Name = res.Name)
  ∧ ((getTargetResourceLog res lastResults).1 = true →
      (getTargetResourceLog res lastResults).2 ∈ lastResults
      ∧ (getTargetResourceLog res lastResults).2.Kind = res.Kind
      ∧ (getTargetResourceLog res lastResults).2.Namespace = res.Namespace
      ∧ (getTargetResourceLog res lastResults).2.Name = res.Name)
  ∧ ((getTargetResourceLog res lastResults).1 = false →
      (getTargetResourceLog res lastResults).2
        = FinalObservationResourceResult.zero) := by
  induction lastResults with
  | nil => simp [getTargetResourceLog]
  | cons lres rest ih =>
    by_cases hc : (lres.Kind == res.Kind && lres.Namespace == res.Namespace
        && lres.Name == res.Name) = true
    · have hids : lres.Kind = res.Kind ∧ lres.Namespace = res.Namespace
          ∧ lres.Name = res.Name := by
        have h' := hc
        simp only [Bool.and_eq_true, beq_iff_eq] at h'
        exact ⟨h'.1.1, h'.1.2, h'.2⟩
      simp only [getTargetResourceLog]
      rw [if_pos hc]
      exact ⟨⟨fun _ => ⟨lres, List.mem_cons_self _ _, hids⟩, fun _ => rfl⟩,
        fun _ => ⟨List.mem_cons_self _ _, hids⟩,
        fun hf => absurd hf (by simp)⟩
    · have hhead : ¬(lres.Kind = res.Kind ∧ lres.Namespace = res.Namespace
          ∧ lres.Name = res.Name) := by
        intro ⟨h1, h2, h3⟩
        exact hc (by simp [h1, h2, h3])
      simp only [getTargetResourceLog]
      rw [if_neg hc]
      refine ⟨?_, fun ht => ⟨List.mem_cons_of_mem _ (ih.2.1 ht).1, (ih.2.1 ht).2⟩,
        ih.2.2⟩
      rw [ih.1]
      constructor
      · rintro ⟨l, hl, hp⟩
        exact ⟨l, List.mem_cons_of_mem _ hl, hp⟩
      · rintro ⟨l, hl, hp⟩
        rcases List.mem_cons.mp hl with rfl | hl'
        · exact absurd hp hhead
        · exact ⟨l, hl', hp⟩

/-- C9 witness: the identity lookup at a concrete matching history. -/
theorem getTargetResourceLog_spec_witness :
    (getTargetResourceLog sampleRes [sampleFinal]).1 = true
  ∧ (getTargetResourceLog sampleRes [sampleFinal]).2 ∈ [sampleFinal] := by
  have h := getTargetResourceLog_spec sampleRes [sampleFinal]
  have ht : (getTargetResourceLog sampleRes [sampleFinal]).1 = true :=
    h.1.mpr ⟨sampleFinal, by simp, rfl, rfl, rfl⟩
  exact ⟨ht, (h.2.1 ht).1⟩

/-- C6: when some kind-filtered candidate exactly matches the resource's
(apiVersion, kind, name, namespace), `getManifestYaml` returns an
identity-matched manifest, for every behaviour of the content search —
in particular its result does not depend on the content search at all. -/
theorem getManifestYaml_identity_precedence
    (cs cs' : List YamlDoc → Unstructured → Bool × Option (List Char))
    (bundle : List YamlDoc) (obj : Unstructured)
    (h : ∃ d ∈ bundle, ∃ m, d.parsed = some m
        ∧ m.apiVersion = obj.apiVersion ∧ m.kind = obj.kind
        ∧ m.name = obj.name ∧ m.nspace = obj.nspace) :
    (∃ d ∈ bundle, ∃ m, d.parsed = some m
        ∧ m.apiVersion = obj.apiVersion ∧ m.kind = obj.kind
        ∧ m.name = obj.name ∧ m.nspace = obj.nspace
        ∧ getManifestYaml cs bundle obj = (true, some d.raw))
  ∧ getManifestYaml cs bundle obj = getManifestYaml cs' bundle obj := by
  obtain ⟨d, hd, m, hm, h1, h2, h3, h4⟩ := h
  have hdk : d ∈ bundle.filter (fun x => match x.parsed with
      | some m => m.kind == obj.kind
      | none => false) :=
    List.mem_filter.mpr ⟨hd, by rw [hm]; simp [h2]⟩
  have hq : (fun x : YamlDoc => match x.parsed with
      | some m => m.apiVersion == obj.apiVersion && m.kind == obj.kind
          && m.name == obj.name && m.nspace == obj.nspace
      | none => false) d = true := by
    simp only [hm, h1, h2, h3, h4]
    simp
  have hfind : ((bundle.filter (fun x => match x.parsed with
      | some m => m.kind == obj.kind
      | none => false)).find? (fun x => match x.parsed with
      | some m => m.apiVersion == obj.apiVersion && m.kind == obj.kind
          && m.name == obj.name && m.nspace == obj.nspace
      | none => false)).isSome :=
    List.find?_isSome.mpr ⟨d, hdk, hq⟩
  obtain ⟨d', hd'⟩ := Option.isSome_iff_exists.mp hfind
  have hd'mem : d' ∈ bundle.filter (fun x => match x.parsed with
      | some m => m.kind == obj.kind
      | none => false) := List.mem_of_find?_eq_some hd'
  have hd'q := List.find?_some hd'
  obtain ⟨m', hm'⟩ : ∃ m', d'.parsed = some m' := by
    cases hp : d'.parsed with
    | none => rw [hp] at hd'q; simp at hd'q
    | some mm => exact ⟨mm, rfl⟩
  have hm'props : m'.apiVersion = obj.apiVersion ∧ m'.kind = obj.kind
      ∧ m'.name = obj.name ∧ m'.nspace = obj.nspace := by
    rw [hm'] at hd'q
    simp only [Bool.and_eq_true, beq_iff_eq] at hd'q
    exact ⟨hd'q.1.1.1, hd'q.1.1.2, hd'q.1.2, hd'q.2⟩
  have hne : (bundle.filter (fun x => match x.parsed with
      | some m => m.kind == obj.kind
      | none => false)).isEmpty = false := by
    cases hfe : bundle.filter (fun x => match x.parsed with
      | some m => m.kind == obj.kind
      | none => false) with
    | nil => rw [hfe] at hdk; simp at hdk
    | cons a l => rfl
  have hms : ManifestSearchByGVKNameNamespace (bundle.filter (fun x => match x.parsed with
      | some m => m.kind == obj.kind
      | none => false)) obj.apiVersion obj.kind obj.name obj.nspace
      = (true, some d'.raw) := by
    unfold ManifestSearchByGVKNameNamespace
    rw [hd']
  have hy : ∀ (csx : List YamlDoc → Unstructured → Bool × Option (List Char)),
      getManifestYaml csx bundle obj = (true, some d'.raw) := by
    intro csx
    simp only [getManifestYaml]
    rw [hne, hms]
    simp
  exact ⟨⟨d', List.mem_of_mem_filter hd'mem, m', hm', hm'props.1, hm'props.2.1,
    hm'props.2.2.1, hm'props.2.2.2, hy cs⟩, (hy cs).trans (hy cs').symm⟩

/-- C7: when no bundle document's kind equals the resource's kind (in
particular on the empty bundle), `getManifestYaml` returns NotFound,
`(false, none)`, for every behaviour of the content search. -/
theorem getManifestYaml_no_kind_match
    (cs : List YamlDoc → Unstructured → Bool × Option (List Char))
    (bundle : List YamlDoc) (obj : Unstructured)
    (h : ∀ d ∈ bundle, ∀ m, d.parsed = some m → m.kind ≠ obj.kind) :
    getManifestYaml cs bundle obj = (false, none) := by
  have hnil : bundle.filter (fun x => match x.parsed with
      | some m => m.kind == obj.kind
      | none => false) = [] := by
    rw [List.filter_eq_nil_iff]
    intro a ha
    cases hp : a.parsed with
    | none => simp
    | some m =>
      simp only [hp]
      simp only [beq_iff_eq]
      exact h a ha m hp
  simp only [getManifestYaml]
  rw [hnil]
  rfl

/-- C6 witness: with an identity match (`web`) present and a content
search that would return the `api` manifest, locate returns the
identity-matched `web` manifest. -/
theorem getManifestYaml_identity_precedence_witness :
    ((∃ d ∈ [docApi, docWeb], ∃ m, d.parsed = some m
        ∧ m.apiVersion = objWeb.apiVersion ∧ m.kind = objWeb.kind
        ∧ m.name = objWeb.name ∧ m.nspace = objWeb.nspace
        ∧ getManifestYaml csPickApi [docApi, docWeb] objWeb = (true, some d.raw))
      ∧ getManifestYaml csPickApi [docApi, docWeb] objWeb
          = getManifestYaml csNone [docApi, docWeb] objWeb)
  ∧ getManifestYaml csPickApi [docApi, docWeb] objWeb
      = (true, some (("web-manifest").data)) :=
  ⟨getManifestYaml_identity_precedence csPickApi csNone [docApi, docWeb] objWeb
      ⟨docWeb, by simp, objWeb, rfl, rfl, rfl, rfl, rfl⟩,
    by rfl⟩

/-- C7 witness: the empty bundle and a one-document bundle of a
different kind both yield `(false, none)`. -/
theorem getManifestYaml_no_kind_match_witness :
    getManifestYaml csNone [] objWeb = (false, none)
  ∧ getManifestYaml csNone
      [{ raw := ("cm-manifest").data
         parsed := some { apiVersion := ("v1").data, kind := ("ConfigMap").data,
                          name := ("cfg").data, nspace := ("default").data } }]
      objWeb = (false, none) :=
  ⟨getManifestYaml_no_kind_match csNone [] objWeb (by simp),
    getManifestYaml_no_kind_match csNone _ objWeb (by
      intro d hd m hm
      simp only [List.mem_singleton] at hd
      subst hd
      simp only [Option.some.injEq] at hm
      subst hm
      decide)⟩

end IntegrityShield
